import Mathlib

/-!
Shallow embedding of `src/providers/lagoon.go` (the Lagoon OIDC provider's
`Authorize` method) and proofs about it.

The Go function is effectful: it logs, builds one HTTP request, performs one
round trip through an HTTP client, reads and closes (or fails to close) the
response body, and JSON-decodes the body.  The embedding makes every effect
explicit data:

* the HTTP client (`client.Do`) becomes a function argument
  `doRequest : HTTPRequest → DoResult`;
* JSON decoding of the response body (`json.Unmarshal` into the
  `environmentByRouteResponse` struct) becomes a function argument
  `unmarshal : String → Except String environmentByRouteResponse`, the
  `.error` payload standing for the wrapped cause;
* log statements become `LogEvent` values collected in the outcome;
* whether the body was read, and whether `resp.Body.Close()` ran before the
  function returned, are recorded as Booleans in the outcome.

Byte strings (request/response bodies, decoded base64) are modelled as
`String` / `List Nat`.
-/

namespace Lagoon

/-- The two fields of `sessions.SessionState` read by `Authorize`. -/
structure SessionState where
  AccessToken : String
  AppRedirect : String
deriving DecidableEq

/-- The constant `lagoonGraphqlEndpoint` from the source. -/
def lagoonGraphqlEndpoint : String :=
  "http://lagoon-api.172.18.0.240.nip.io/graphql"

/-- The Go raw-string constant `queryGetEnvironmentByRoute`.  The raw string
literal opens with a line break right after the backtick and closes with one
right before it, so the constant begins and ends with a newline character. -/
def queryGetEnvironmentByRoute : String :=
  "\nquery GetEnvironmentByRoute($route: String!) \x7b\n  environmentByRoute(route: $route) \x7b\n    id\n    name\n  \x7d\n\x7d\n"

/-- The inner `environmentByRoute` object of the decoded response
(Go fields `ID int`, `Name string`; JSON names used here). -/
structure EnvironmentByRouteObject where
  id : Int
  name : String
deriving DecidableEq

/-- The `data` object of the decoded response. -/
structure EnvironmentByRouteData where
  environmentByRoute : EnvironmentByRouteObject
deriving DecidableEq

/-- One element of the `errors` array (Go field `Message string`). -/
structure GraphQLErrorEntry where
  message : String
deriving DecidableEq

/-- The Go struct `environmentByRouteResponse`: target shape of
`json.Unmarshal` for the 200 response body. -/
structure environmentByRouteResponse where
  data : EnvironmentByRouteData
  errors : List GraphQLErrorEntry
deriving DecidableEq

/-- The parts of the outbound `http.Request` that `Authorize` sets: method,
URL, the two headers, and the JSON body
`rec "query": q, "variables": rec "route": r` (as structured data). -/
structure GraphQLRequestBody where
  query : String
  route : String
deriving DecidableEq

structure HTTPRequest where
  method : String
  url : String
  authorization : String
  contentType : String
  body : GraphQLRequestBody
deriving DecidableEq

/-- The parts of the `http.Response` that `Authorize` consumes: the status
code, the bytes `io.ReadAll(resp.Body)` delivers, and whether `io.ReadAll`
also returned a (discarded) error. -/
structure HTTPResponse where
  statusCode : Nat
  bodyBytes : String
  readErr : Bool
deriving DecidableEq

/-- Outcome of `client.Do`: transport error (`err != nil`) or a response. -/
inductive DoResult where
  | failure
  | ok (resp : HTTPResponse)
deriving DecidableEq

/-- The error classification of `Authorize`, one constructor per
`fmt.Errorf` site, named by the spec's taxonomy:
* `MissingDestination` — "missing redirect URL";
* `RequestEncodingFailed` — "failed to marshal GraphQL request" (unreachable
  here: `json.Marshal` of a string-valued map cannot fail);
* `RequestCreationFailed` — "failed to create GraphQL request" (unreachable
  here: the method and URL are valid constants);
* `TransportFailure` — "failed to call Lagoon GraphQL API";
* `UnexpectedStatus` — "unexpected GraphQL status: %d";
* `ResponseDecodeFailed` — "failed to decode GraphQL response", wrapping the
  cause;
* `RemoteGraphQLError` — "GraphQL error: %s" with the first message. -/
inductive AuthorizeError where
  | MissingDestination
  | RequestEncodingFailed
  | RequestCreationFailed
  | TransportFailure
  | UnexpectedStatus (code : Nat)
  | ResponseDecodeFailed (cause : String)
  | RemoteGraphQLError (message : String)
deriving DecidableEq

/-- The `logger.Printf` calls of `Authorize`, as structured events. -/
inductive LogEvent where
  | checkingRoute (appRedirect : String)
  | accessTokenHeader (decoded : Option (List Nat))
  | accessTokenPayload (decoded : Option (List Nat))
  | responseBody (body : String)
deriving DecidableEq

/-- Everything observable about one call to `Authorize`: the returned pair,
the log, the request issued (if any), and whether the response body was read
and closed. -/
structure AuthorizeOutcome where
  allowed : Bool
  error : Option AuthorizeError
  logs : List LogEvent
  requestSent : Option HTTPRequest
  bodyRead : Bool
  bodyClosed : Bool
deriving DecidableEq

/-- `strings.Split(s, ".")` on the character list: split on every `'.'`,
keeping empty fields (`Split` with a one-character non-empty separator). -/
def splitCharsOnDot : List Char → List (List Char)
  | [] => [[]]
  | c :: rest =>
    let r := splitCharsOnDot rest
    if c = '.' then [] :: r
    else
      match r with
      | [] => [[c]]
      | h :: t => (c :: h) :: t

/-- `strings.Split(s, ".")`. -/
def splitOnDot (s : String) : List String :=
  (splitCharsOnDot s.data).map (fun l => ⟨l⟩)

/-- `strings.TrimRight(s, "/")`: remove all trailing `'/'` characters. -/
def trimRightSlash (s : String) : String :=
  ⟨(s.data.reverse.dropWhile (fun c => c == '/')).reverse⟩

/-- Value of one character in the URL-safe base64 alphabet
`A-Z a-z 0-9 - _`, or `none` when the character is not in the alphabet. -/
def b64urlIndex (c : Char) : Option Nat :=
  if 'A' ≤ c ∧ c ≤ 'Z' then some (c.toNat - 'A'.toNat)
  else if 'a' ≤ c ∧ c ≤ 'z' then some (c.toNat - 'a'.toNat + 26)
  else if '0' ≤ c ∧ c ≤ '9' then some (c.toNat - '0'.toNat + 52)
  else if c = '-' then some 62
  else if c = '_' then some 63
  else none

/-- Reassemble 6-bit values into bytes, unpadded: 4 sextets give 3 bytes,
a remainder of 2 or 3 sextets gives 1 or 2 bytes, a remainder of 1 sextet is
an error (`base64.RawURLEncoding` rejects input of length ≡ 1 mod 4). -/
def sextetsToBytes : List Nat → Option (List Nat)
  | [] => some []
  | [_] => none
  | [a, b] => some [a * 4 + b / 16]
  | [a, b, c] => some [a * 4 + b / 16, (b % 16) * 16 + c / 4]
  | a :: b :: c :: d :: rest =>
    match sextetsToBytes rest with
    | none => none
    | some tail =>
      some ((a * 4 + b / 16) :: ((b % 16) * 16 + c / 4) :: ((c % 4) * 64 + d) :: tail)

/-- `base64.RawURLEncoding.DecodeString`: URL-safe alphabet, no padding;
`none` on any character outside the alphabet or on length ≡ 1 mod 4. -/
def base64RawURLDecode (s : String) : Option (List Nat) :=
  match s.data.mapM b64urlIndex with
  | none => none
  | some sextets => sextetsToBytes sextets

/-- The token-inspection step of `Authorize`, parameterised over the base64
decoder: split the access token on `'.'`; only when there are exactly 3
parts, decode parts 0 and 1 and log them.  Decode results (including
failures) are only logged, never returned. -/
def tokenInspectWith (dec : String → Option (List Nat)) (token : String) :
    List LogEvent :=
  match splitOnDot token with
  | [h, p, _] => [LogEvent.accessTokenHeader (dec h), LogEvent.accessTokenPayload (dec p)]
  | _ => []

/-- The token-inspection step with the real decoder. -/
def tokenInspect : String → List LogEvent :=
  tokenInspectWith base64RawURLDecode

/-- The outbound request `Authorize` builds for a session and a normalized
route: POST to the fixed endpoint, `Authorization: Bearer <token>`,
`Content-Type: application/json`, body carrying the fixed query and the
route variable. -/
def buildRequest (s : SessionState) (route : String) : HTTPRequest :=
  { method := "POST"
    url := lagoonGraphqlEndpoint
    authorization := "Bearer " ++ s.AccessToken
    contentType := "application/json"
    body := { query := queryGetEnvironmentByRoute, route := route } }

/-- `LagoonOIDCProvider.Authorize`, parameterised over the base64 decoder
used by the token-inspection step, the HTTP client and the JSON decoder.
Mirrors the source line by line; in particular the `defer resp.Body.Close()`
of the source is registered only after the status-code check, so on the
non-200 return path `bodyClosed` is `false`. -/
def AuthorizeWith (dec : String → Option (List Nat))
    (doRequest : HTTPRequest → DoResult)
    (unmarshal : String → Except String environmentByRouteResponse)
    (s : SessionState) : AuthorizeOutcome :=
  let logs1 := LogEvent.checkingRoute s.AppRedirect :: tokenInspectWith dec s.AccessToken
  let route := trimRightSlash s.AppRedirect
  if route = "" then
    { allowed := false, error := some AuthorizeError.MissingDestination
      logs := logs1, requestSent := none, bodyRead := false, bodyClosed := false }
  else
    let req := buildRequest s route
    match doRequest req with
    | DoResult.failure =>
      { allowed := false, error := some AuthorizeError.TransportFailure
        logs := logs1, requestSent := some req, bodyRead := false, bodyClosed := false }
    | DoResult.ok resp =>
      if resp.statusCode ≠ 200 then
        { allowed := false, error := some (AuthorizeError.UnexpectedStatus resp.statusCode)
          logs := logs1, requestSent := some req, bodyRead := false, bodyClosed := false }
      else
        let logs2 := logs1 ++ [LogEvent.responseBody resp.bodyBytes]
        match unmarshal resp.bodyBytes with
        | Except.error cause =>
          { allowed := false, error := some (AuthorizeError.ResponseDecodeFailed cause)
            logs := logs2, requestSent := some req, bodyRead := true, bodyClosed := true }
        | Except.ok gqlResp =>
          match gqlResp.errors with
          | e :: _ =>
            { allowed := false, error := some (AuthorizeError.RemoteGraphQLError e.message)
              logs := logs2, requestSent := some req, bodyRead := true, bodyClosed := true }
          | [] =>
            if gqlResp.data.environmentByRoute.name ≠ "" then
              { allowed := true, error := none
                logs := logs2, requestSent := some req, bodyRead := true, bodyClosed := true }
            else
              { allowed := false, error := none
                logs := logs2, requestSent := some req, bodyRead := true, bodyClosed := true }

/-- `Authorize` with the real base64 decoder. -/
def Authorize : (HTTPRequest → DoResult) →
    (String → Except String environmentByRouteResponse) →
    SessionState → AuthorizeOutcome :=
  AuthorizeWith base64RawURLDecode

/-- The GraphQL query text exactly as displayed in the spec (§6), for the
byte-for-byte comparison demanded there. -/
def specQueryGetEnvironmentByRoute : String :=
  "query GetEnvironmentByRoute($route: String!) \x7b\n  environmentByRoute(route: $route) \x7b\n    id\n    name\n  \x7d\n\x7d"

/-! ## Helper lemmas about `trimRightSlash` -/

lemma trimRightSlash_data (s : String) :
    (trimRightSlash s).data = s.data.rdropWhile (fun c => c == '/') := rfl

lemma trimRightSlash_eq_empty (s : String) (h : ∀ c ∈ s.data, c = '/') :
    trimRightSlash s = "" := by
  have hd : (trimRightSlash s).data = [] := by
    rw [trimRightSlash_data, List.rdropWhile_eq_nil_iff]
    intro x hx
    simp [h x hx]
  calc trimRightSlash s = String.mk (trimRightSlash s).data := rfl
  _ = String.mk [] := by rw [hd]
  _ = "" := rfl

lemma rdropWhile_append_rtakeWhile (p : Char → Bool) (l : List Char) :
    l.rdropWhile p ++ l.rtakeWhile p = l := by
  rw [List.rdropWhile, List.rtakeWhile, ← List.reverse_append, List.takeWhile_append_dropWhile]
  exact List.reverse_reverse l

/-- `AppRedirect` decomposes as the normalized route followed by a block of
`'/'` characters: `trimRightSlash` removes trailing slashes and nothing
else. -/
lemma appRedirect_decomposition (s : String) :
    s.data = (trimRightSlash s).data
      ++ List.replicate (s.data.rtakeWhile (fun c => c == '/')).length '/' := by
  conv_lhs => rw [← rdropWhile_append_rtakeWhile (fun c => c == '/') s.data]
  rw [trimRightSlash_data]
  congr 1
  refine List.eq_replicate_of_mem ?_
  intro b hb
  have hp := List.mem_rtakeWhile_imp hb
  simpa using hp

/-- The normalized route never ends in `'/'`: all trailing slashes are
removed. -/
lemma trimRightSlash_last_ne_slash (s : String) (c : Char)
    (h : (trimRightSlash s).data.getLast? = some c) : c ≠ '/' := by
  rw [trimRightSlash_data] at h
  have hne : s.data.rdropWhile (fun x => x == '/') ≠ [] := by
    intro h0
    rw [h0] at h
    simp at h
  have hnot := List.rdropWhile_last_not (fun x => x == '/') s.data hne
  have hc : (s.data.rdropWhile (fun x => x == '/')).getLast hne = c := by
    rwa [List.getLast?_eq_getLast _ hne, Option.some_inj] at h
  rw [hc] at hnot
  simpa using hnot

/-! ## Claim theorems -/

/-- Claim C2: for every session whose `AppRedirect` is empty or consists only
of `'/'` characters, `Authorize` returns `(false, MissingDestination)`
immediately: no HTTP request is constructed or issued, and the outcome does
not depend on the HTTP client or on the response decoder at all. -/
theorem authorize_missing_destination
    (dec : String → Option (List Nat)) (doReq1 doReq2 : HTTPRequest → DoResult)
    (um1 um2 : String → Except String environmentByRouteResponse) (s : SessionState)
    (h : ∀ c ∈ s.AppRedirect.data, c = '/') :
    (AuthorizeWith dec doReq1 um1 s).allowed = false
    ∧ (AuthorizeWith dec doReq1 um1 s).error = some AuthorizeError.MissingDestination
    ∧ (AuthorizeWith dec doReq1 um1 s).requestSent = none
    ∧ AuthorizeWith dec doReq1 um1 s = AuthorizeWith dec doReq2 um2 s := by
  have ht : trimRightSlash s.AppRedirect = "" := trimRightSlash_eq_empty _ h
  simp [AuthorizeWith, ht]

theorem authorize_missing_destination_witness :
    (AuthorizeWith base64RawURLDecode (fun _ => DoResult.failure)
      (fun _ => Except.error "e") ⟨"tok", "///"⟩).error
      = some AuthorizeError.MissingDestination :=
  (authorize_missing_destination base64RawURLDecode (fun _ => DoResult.failure)
    (fun _ => DoResult.ok ⟨200, "", false⟩) (fun _ => Except.error "e")
    (fun _ => Except.ok ⟨⟨⟨0, ""⟩⟩, []⟩) ⟨"tok", "///"⟩ (by decide)).2.1

/-- Claim C4: for every response with status code other than 200, `Authorize`
returns `(false, UnexpectedStatus code)`; the body is not read
(`bodyRead = false`) and the outcome does not depend on the response decoder
in any way. -/
theorem authorize_unexpected_status
    (dec : String → Option (List Nat)) (doReq : HTTPRequest → DoResult)
    (um1 um2 : String → Except String environmentByRouteResponse)
    (s : SessionState) (resp : HTTPResponse)
    (h1 : trimRightSlash s.AppRedirect ≠ "")
    (h2 : doReq (buildRequest s (trimRightSlash s.AppRedirect)) = DoResult.ok resp)
    (h3 : resp.statusCode ≠ 200) :
    (AuthorizeWith dec doReq um1 s).allowed = false
    ∧ (AuthorizeWith dec doReq um1 s).error
      = some (AuthorizeError.UnexpectedStatus resp.statusCode)
    ∧ (AuthorizeWith dec doReq um1 s).bodyRead = false
    ∧ AuthorizeWith dec doReq um1 s = AuthorizeWith dec doReq um2 s := by
  simp [AuthorizeWith, h1, h2, h3]

theorem authorize_unexpected_status_witness :
    (AuthorizeWith base64RawURLDecode (fun _ => DoResult.ok ⟨500, "ignored", true⟩)
      (fun _ => Except.error "e") ⟨"tok", "/app"⟩).error
      = some (AuthorizeError.UnexpectedStatus 500) :=
  (authorize_unexpected_status base64RawURLDecode (fun _ => DoResult.ok ⟨500, "ignored", true⟩)
    (fun _ => Except.error "e") (fun _ => Except.ok ⟨⟨⟨0, ""⟩⟩, []⟩)
    ⟨"tok", "/app"⟩ ⟨500, "ignored", true⟩ (by decide) rfl (by decide)).2.1

/-- Claim C5: on every call, never both an error and a positive decision:
whenever the returned error is non-`nil` the boolean is `false`, and whenever
the boolean is `true` the error is `nil`. -/
theorem authorize_error_decision_exclusive
    (dec : String → Option (List Nat)) (doReq : HTTPRequest → DoResult)
    (um : String → Except String environmentByRouteResponse) (s : SessionState) :
    ((AuthorizeWith dec doReq um s).error ≠ none →
      (AuthorizeWith dec doReq um s).allowed = false)
    ∧ ((AuthorizeWith dec doReq um s).allowed = true →
      (AuthorizeWith dec doReq um s).error = none) := by
  by_cases h0 : trimRightSlash s.AppRedirect = ""
  · simp [AuthorizeWith, h0]
  · cases hdo : doReq (buildRequest s (trimRightSlash s.AppRedirect)) with
    | failure => simp [AuthorizeWith, h0, hdo]
    | ok resp =>
      by_cases hsc : resp.statusCode = 200
      · cases hu : um resp.bodyBytes with
        | error cause => simp [AuthorizeWith, h0, hdo, hsc, hu]
        | ok r =>
          cases he : r.errors with
          | cons e tl => simp [AuthorizeWith, h0, hdo, hsc, hu, he]
          | nil =>
            by_cases hn : r.data.environmentByRoute.name = ""
            · simp [AuthorizeWith, h0, hdo, hsc, hu, he, hn]
            · simp [AuthorizeWith, h0, hdo, hsc, hu, he, hn]
      · simp [AuthorizeWith, h0, hdo, hsc]

theorem authorize_error_decision_exclusive_witness :
    (AuthorizeWith base64RawURLDecode (fun _ => DoResult.failure)
      (fun _ => Except.error "e") ⟨"t", "/app"⟩).allowed = false :=
  (authorize_error_decision_exclusive base64RawURLDecode (fun _ => DoResult.failure)
    (fun _ => Except.error "e") ⟨"t", "/app"⟩).1 (by decide)

/-- Claim C1: on an HTTP 200 response whose body decodes into the
`environmentByRouteResponse` shape with an empty errors list, the decision is
`allowed = (data.environmentByRoute.name != "")` and the error is `nil`; the
equivalence holds for every decoded value `r`, hence no other field of `r`
(such as `id`) influences the decision. -/
theorem authorize_allowed_iff_name_nonempty
    (dec : String → Option (List Nat)) (doReq : HTTPRequest → DoResult)
    (um : String → Except String environmentByRouteResponse)
    (s : SessionState) (resp : HTTPResponse) (r : environmentByRouteResponse)
    (h1 : trimRightSlash s.AppRedirect ≠ "")
    (h2 : doReq (buildRequest s (trimRightSlash s.AppRedirect)) = DoResult.ok resp)
    (h3 : resp.statusCode = 200)
    (h4 : um resp.bodyBytes = Except.ok r)
    (h5 : r.errors = []) :
    ((AuthorizeWith dec doReq um s).allowed = true ↔ r.data.environmentByRoute.name ≠ "")
    ∧ (AuthorizeWith dec doReq um s).error = none := by
  by_cases hn : r.data.environmentByRoute.name = "" <;>
    simp [AuthorizeWith, h1, h2, h3, h4, h5, hn]

theorem authorize_allowed_iff_name_nonempty_witness :
    (AuthorizeWith base64RawURLDecode (fun _ => DoResult.ok ⟨200, "resp", false⟩)
      (fun _ => Except.ok ⟨⟨⟨7, "prod"⟩⟩, []⟩) ⟨"tok", "https://example.com/app"⟩).allowed
      = true :=
  (authorize_allowed_iff_name_nonempty base64RawURLDecode
    (fun _ => DoResult.ok ⟨200, "resp", false⟩) (fun _ => Except.ok ⟨⟨⟨7, "prod"⟩⟩, []⟩)
    ⟨"tok", "https://example.com/app"⟩ ⟨200, "resp", false⟩ ⟨⟨⟨7, "prod"⟩⟩, []⟩
    (by decide) rfl rfl rfl rfl).1.mpr (by decide)

/-- Claim C3: on an HTTP 200 response that decodes with a non-empty errors
list, `Authorize` returns `(false, RemoteGraphQLError)` carrying the message
of the first element, whatever the rest of the list and whatever `data` also
holds; the errors check precedes the name check. -/
theorem authorize_graphql_error_first_message
    (dec : String → Option (List Nat)) (doReq : HTTPRequest → DoResult)
    (um : String → Except String environmentByRouteResponse)
    (s : SessionState) (resp : HTTPResponse) (r : environmentByRouteResponse)
    (e : GraphQLErrorEntry) (tl : List GraphQLErrorEntry)
    (h1 : trimRightSlash s.AppRedirect ≠ "")
    (h2 : doReq (buildRequest s (trimRightSlash s.AppRedirect)) = DoResult.ok resp)
    (h3 : resp.statusCode = 200)
    (h4 : um resp.bodyBytes = Except.ok r)
    (h5 : r.errors = e :: tl) :
    (AuthorizeWith dec doReq um s).allowed = false
    ∧ (AuthorizeWith dec doReq um s).error
      = some (AuthorizeError.RemoteGraphQLError e.message) := by
  simp [AuthorizeWith, h1, h2, h3, h4, h5]

theorem authorize_graphql_error_first_message_witness :
    (AuthorizeWith base64RawURLDecode (fun _ => DoResult.ok ⟨200, "resp", false⟩)
      (fun _ => Except.ok ⟨⟨⟨7, "prod"⟩⟩, [⟨"denied"⟩, ⟨"second"⟩]⟩)
      ⟨"tok", "https://example.com/app"⟩).error
      = some (AuthorizeError.RemoteGraphQLError "denied") :=
  (authorize_graphql_error_first_message base64RawURLDecode
    (fun _ => DoResult.ok ⟨200, "resp", false⟩)
    (fun _ => Except.ok ⟨⟨⟨7, "prod"⟩⟩, [⟨"denied"⟩, ⟨"second"⟩]⟩)
    ⟨"tok", "https://example.com/app"⟩ ⟨200, "resp", false⟩
    ⟨⟨⟨7, "prod"⟩⟩, [⟨"denied"⟩, ⟨"second"⟩]⟩ ⟨"denied"⟩ [⟨"second"⟩]
    (by decide) rfl rfl rfl rfl).2

/-- Claim C8: on an HTTP 200 response, `Authorize` returns
`(false, ResponseDecodeFailed)` wrapping the decoder's cause exactly when the
body fails to decode into the `environmentByRouteResponse` shape; when
decoding succeeds the error is never `ResponseDecodeFailed` (processing
continues to the errors/name checks). -/
theorem authorize_decode_failed_iff
    (dec : String → Option (List Nat)) (doReq : HTTPRequest → DoResult)
    (um : String → Except String environmentByRouteResponse)
    (s : SessionState) (resp : HTTPResponse)
    (h1 : trimRightSlash s.AppRedirect ≠ "")
    (h2 : doReq (buildRequest s (trimRightSlash s.AppRedirect)) = DoResult.ok resp)
    (h3 : resp.statusCode = 200) :
    (∀ cause, um resp.bodyBytes = Except.error cause →
      (AuthorizeWith dec doReq um s).allowed = false
      ∧ (AuthorizeWith dec doReq um s).error
        = some (AuthorizeError.ResponseDecodeFailed cause))
    ∧ (∀ r, um resp.bodyBytes = Except.ok r → ∀ cause,
      (AuthorizeWith dec doReq um s).error
        ≠ some (AuthorizeError.ResponseDecodeFailed cause)) := by
  constructor
  · intro cause hc
    simp [AuthorizeWith, h1, h2, h3, hc]
  · intro r hr cause
    cases he : r.errors with
    | cons e tl => simp [AuthorizeWith, h1, h2, h3, hr, he]
    | nil =>
      by_cases hn : r.data.environmentByRoute.name = "" <;>
        simp [AuthorizeWith, h1, h2, h3, hr, he, hn]

theorem authorize_decode_failed_iff_witness :
    (AuthorizeWith base64RawURLDecode (fun _ => DoResult.ok ⟨200, "notjson", false⟩)
      (fun _ => Except.error "invalid character") ⟨"tok", "/app"⟩).error
      = some (AuthorizeError.ResponseDecodeFailed "invalid character") :=
  ((authorize_decode_failed_iff base64RawURLDecode
    (fun _ => DoResult.ok ⟨200, "notjson", false⟩)
    (fun _ => Except.error "invalid character") ⟨"tok", "/app"⟩ ⟨200, "notjson", false⟩
    (by decide) rfl rfl).1 "invalid character" rfl).2

/-- Claim C6: token inspection is total and diagnostic-only.  It acts exactly
when splitting the token on `'.'` gives 3 segments, in which case it decodes
the first two with unpadded URL-safe base64 and only logs the (possibly
failed) results; and its behaviour never influences the decision: for any two
base64 decoders the call returns the same `allowed`, the same error and sends
the same request. -/
theorem tokenInspect_diagnostic_only :
    (∀ t hd pl sg, splitOnDot t = [hd, pl, sg] →
      tokenInspect t = [LogEvent.accessTokenHeader (base64RawURLDecode hd),
        LogEvent.accessTokenPayload (base64RawURLDecode pl)])
    ∧ (∀ t, (splitOnDot t).length ≠ 3 → tokenInspect t = [])
    ∧ (∀ d1 d2 doReq um s,
      (AuthorizeWith d1 doReq um s).allowed = (AuthorizeWith d2 doReq um s).allowed
      ∧ (AuthorizeWith d1 doReq um s).error = (AuthorizeWith d2 doReq um s).error
      ∧ (AuthorizeWith d1 doReq um s).requestSent
        = (AuthorizeWith d2 doReq um s).requestSent) := by
  refine ⟨?_, ?_, ?_⟩
  · intro t hd pl sg hsplit
    unfold tokenInspect tokenInspectWith
    rw [hsplit]
  · intro t ht
    unfold tokenInspect tokenInspectWith
    rcases hs : splitOnDot t with _ | ⟨a, _ | ⟨b, _ | ⟨c, _ | ⟨d, tl⟩⟩⟩⟩
    · rfl
    · rfl
    · rfl
    · exact absurd (by rw [hs]; rfl) ht
    · rfl
  · intro d1 d2 doReq um s
    by_cases h0 : trimRightSlash s.AppRedirect = ""
    · simp [AuthorizeWith, h0]
    · cases hdo : doReq (buildRequest s (trimRightSlash s.AppRedirect)) with
      | failure => simp [AuthorizeWith, h0, hdo]
      | ok resp =>
        by_cases hsc : resp.statusCode = 200
        · cases hu : um resp.bodyBytes with
          | error cause => simp [AuthorizeWith, h0, hdo, hsc, hu]
          | ok r =>
            cases he : r.errors with
            | cons e tle => simp [AuthorizeWith, h0, hdo, hsc, hu, he]
            | nil =>
              by_cases hn : r.data.environmentByRoute.name = "" <;>
                simp [AuthorizeWith, h0, hdo, hsc, hu, he, hn]
        · simp [AuthorizeWith, h0, hdo, hsc]

theorem tokenInspect_diagnostic_only_witness :
    tokenInspect "aa.bb.cc" = [LogEvent.accessTokenHeader (base64RawURLDecode "aa"),
      LogEvent.accessTokenPayload (base64RawURLDecode "bb")]
    ∧ tokenInspect "aabbcc" = []
    ∧ (AuthorizeWith (fun _ => none) (fun _ => DoResult.failure)
        (fun _ => Except.error "e") ⟨"aa.bb.cc", "/r"⟩).error
      = (AuthorizeWith (fun _ => some []) (fun _ => DoResult.failure)
        (fun _ => Except.error "e") ⟨"aa.bb.cc", "/r"⟩).error :=
  ⟨tokenInspect_diagnostic_only.1 "aa.bb.cc" "aa" "bb" "cc" (by decide),
    tokenInspect_diagnostic_only.2.1 "aabbcc" (by decide),
    (tokenInspect_diagnostic_only.2.2 (fun _ => none) (fun _ => some [])
      (fun _ => DoResult.failure) (fun _ => Except.error "e") ⟨"aa.bb.cc", "/r"⟩).2.1⟩

/-- Claim C10 (implicit): the error `io.ReadAll` may return alongside the
bytes is silently discarded — the outcome is identical for any value of the
read-error flag and depends only on the delivered bytes — and on the 200 path
the error is never reported as `TransportFailure`. -/
theorem authorize_read_error_discarded
    (dec : String → Option (List Nat))
    (um : String → Except String environmentByRouteResponse)
    (s : SessionState) (bytes : String) (e1 e2 : Bool) :
    AuthorizeWith dec (fun _ => DoResult.ok ⟨200, bytes, e1⟩) um s
      = AuthorizeWith dec (fun _ => DoResult.ok ⟨200, bytes, e2⟩) um s
    ∧ (AuthorizeWith dec (fun _ => DoResult.ok ⟨200, bytes, e1⟩) um s).error
      ≠ some AuthorizeError.TransportFailure := by
  by_cases h0 : trimRightSlash s.AppRedirect = ""
  · simp [AuthorizeWith, h0]
  · cases hu : um bytes with
    | error cause => simp [AuthorizeWith, h0, hu]
    | ok r =>
      cases he : r.errors with
      | cons e tl => simp [AuthorizeWith, h0, hu, he]
      | nil =>
        by_cases hn : r.data.environmentByRoute.name = "" <;>
          simp [AuthorizeWith, h0, hu, he, hn]

theorem authorize_read_error_discarded_witness :
    AuthorizeWith base64RawURLDecode (fun _ => DoResult.ok ⟨200, "body", true⟩)
      (fun _ => Except.error "e") ⟨"t", "/app"⟩
      = AuthorizeWith base64RawURLDecode (fun _ => DoResult.ok ⟨200, "body", false⟩)
      (fun _ => Except.error "e") ⟨"t", "/app"⟩ :=
  (authorize_read_error_discarded base64RawURLDecode (fun _ => Except.error "e")
    ⟨"t", "/app"⟩ "body" true false).1

/-- Claim C7 (amended): for every session with a non-empty normalized
`AppRedirect`, the outbound request is a POST to the fixed endpoint with
`Authorization: Bearer <AccessToken>` and `Content-Type: application/json`,
and a body whose `route` variable is `AppRedirect` with exactly its trailing
`'/'` characters stripped (the original decomposes as the route followed by a
run of slashes, and the route never ends in a slash); the `query` field is
the spec's query text enclosed in one leading and one trailing newline
(contributed by the raw-string literal), not the spec text byte-for-byte. -/
theorem authorize_request_shape
    (dec : String → Option (List Nat)) (doReq : HTTPRequest → DoResult)
    (um : String → Except String environmentByRouteResponse) (s : SessionState)
    (h : trimRightSlash s.AppRedirect ≠ "") :
    (AuthorizeWith dec doReq um s).requestSent = some
      { method := "POST"
        url := lagoonGraphqlEndpoint
        authorization := "Bearer " ++ s.AccessToken
        contentType := "application/json"
        body := { query := "\n" ++ specQueryGetEnvironmentByRoute ++ "\n"
                  route := trimRightSlash s.AppRedirect } }
    ∧ s.AppRedirect.data = (trimRightSlash s.AppRedirect).data
        ++ List.replicate (s.AppRedirect.data.rtakeWhile (fun c => c == '/')).length '/'
    ∧ (∀ c, (trimRightSlash s.AppRedirect).data.getLast? = some c → c ≠ '/') := by
  refine ⟨?_, appRedirect_decomposition s.AppRedirect,
    fun c hc => trimRightSlash_last_ne_slash _ c hc⟩
  have hq : ("\n" ++ specQueryGetEnvironmentByRoute ++ "\n") = queryGetEnvironmentByRoute := by
    decide
  rw [hq]
  show (AuthorizeWith dec doReq um s).requestSent
    = some (buildRequest s (trimRightSlash s.AppRedirect))
  cases hdo : doReq (buildRequest s (trimRightSlash s.AppRedirect)) with
  | failure => simp [AuthorizeWith, h, hdo]
  | ok resp =>
    by_cases hsc : resp.statusCode = 200
    · cases hu : um resp.bodyBytes with
      | error cause => simp [AuthorizeWith, h, hdo, hsc, hu]
      | ok r =>
        cases he : r.errors with
        | cons e tl => simp [AuthorizeWith, h, hdo, hsc, hu, he]
        | nil =>
          by_cases hn : r.data.environmentByRoute.name = "" <;>
            simp [AuthorizeWith, h, hdo, hsc, hu, he, hn]
    · simp [AuthorizeWith, h, hdo, hsc]

theorem authorize_request_shape_witness :
    (AuthorizeWith base64RawURLDecode (fun _ => DoResult.failure)
      (fun _ => Except.error "e") ⟨"tok", "https://example.com/app///"⟩).requestSent
      = some
      { method := "POST"
        url := lagoonGraphqlEndpoint
        authorization := "Bearer " ++ "tok"
        contentType := "application/json"
        body := { query := "\n" ++ specQueryGetEnvironmentByRoute ++ "\n"
                  route := trimRightSlash "https://example.com/app///" } } :=
  (authorize_request_shape base64RawURLDecode (fun _ => DoResult.failure)
    (fun _ => Except.error "e") ⟨"tok", "https://example.com/app///"⟩ (by decide)).1

/-- Claim C7, counterexample to the byte-for-byte part: at a concrete call
the query string placed in the request body is the code's constant, which is
not byte-identical to the spec's displayed query text (the constant starts
and ends with an extra newline). -/
theorem authorize_query_text_counterexample :
    ((Authorize (fun _ => DoResult.ok ⟨200, "", false⟩) (fun _ => Except.error "e")
      ⟨"tok", "https://example.com/app///"⟩).requestSent.map
        (fun r => r.body.query)) = some queryGetEnvironmentByRoute
    ∧ queryGetEnvironmentByRoute ≠ specQueryGetEnvironmentByRoute :=
  ⟨rfl, by decide⟩

/-- Claim C9 is contradicted by the code: the source registers
`defer resp.Body.Close()` only after the non-200 early return, so when the
status code is not 200 the function returns without closing the body, while
on the 200 path the body is closed.  Concrete evaluation at a 500 and at a
200 response. -/
theorem authorize_body_not_closed_on_non200 :
    (Authorize (fun _ => DoResult.ok ⟨500, "", false⟩) (fun _ => Except.error "boom")
      ⟨"tok", "https://example.com/app"⟩).error
      = some (AuthorizeError.UnexpectedStatus 500)
    ∧ (Authorize (fun _ => DoResult.ok ⟨500, "", false⟩) (fun _ => Except.error "boom")
      ⟨"tok", "https://example.com/app"⟩).bodyClosed = false
    ∧ (Authorize (fun _ => DoResult.ok ⟨200, "", false⟩) (fun _ => Except.error "boom")
      ⟨"tok", "https://example.com/app"⟩).bodyClosed = true :=
  ⟨rfl, rfl, rfl⟩

end Lagoon
